import Mathlib

/-
  Verification development for the uno-game repository.

  Shallow embedding of:
  - the room engine `game_room_process` of src/unoservers.py (deck, hands,
    discard pile, turn state, and the command dispatch loop), and
  - the broker registry of src/broker.py (`handle_connection`).

  Python strings are modelled as Lean `String`; Python lists as `List`;
  the `hands` dict as an insertion-ordered association list; Python ints
  as `Int`/`Nat` (Python ints are unbounded, so no wrap-around modelling
  is needed).  `random.shuffle` is modelled by quantifying over an
  arbitrary initial deck list.  Network sends are modelled as an explicit
  list of outbound messages returned by each event handler.
-/

namespace Uno

/- ----------------------------------------------------------------
   String utilities mirroring the Python string operations used by
   the source (str.strip, str.split, str.lower, str.capitalize,
   str.startswith, str.rsplit(" ", 1), int(...)).
   ---------------------------------------------------------------- -/

def isWsChar (c : Char) : Bool := c = ' ' || c = '\t' || c = '\n' || c = '\r'

/-- Python `str.lower()`. -/
def lowerStr (s : String) : String := String.mk (s.data.map Char.toLower)

/-- Python `str.capitalize()`: first character upper-cased, the rest lower-cased. -/
def capitalizePy (s : String) : String :=
  match s.data with
  | [] => ""
  | c :: cs => String.mk (c.toUpper :: cs.map Char.toLower)

/-- Python `str.strip()`. -/
def stripStr (s : String) : String :=
  String.mk (((s.data.dropWhile isWsChar).reverse.dropWhile isWsChar).reverse)

def listStarts : List Char → List Char → Bool
  | [], _ => true
  | _ :: _, [] => false
  | a :: as, b :: bs => a = b && listStarts as bs

/-- Python `s.startswith(pre)`. -/
def strStarts (s pre : String) : Bool := listStarts pre.data s.data

/-- Python `s.rsplit(" ", 1)` unpacked into two variables: splits at the last
space; when `s` holds no space, the two-variable unpacking raises
`ValueError`, modelled as `none`. -/
def rsplit1 (s : String) : Option (String × String) :=
  let r := s.data.reverse
  match r.dropWhile (fun c => c ≠ ' ') with
  | [] => none
  | _ :: rest => some (String.mk rest.reverse, String.mk (r.takeWhile (fun c => c ≠ ' ')).reverse)

/-- Python `command.split()`: split on whitespace runs, dropping empty pieces. -/
def wordsAux : List Char → List Char → List String
  | [], acc => if acc = [] then [] else [String.mk acc.reverse]
  | c :: cs, acc =>
    if isWsChar c then
      (if acc = [] then wordsAux cs [] else String.mk acc.reverse :: wordsAux cs [])
    else wordsAux cs (c :: acc)

def splitWs (s : String) : List String := wordsAux s.data []

def digitsToNatAux : List Char → Nat → Option Nat
  | [], acc => some acc
  | c :: cs, acc =>
    if '0' ≤ c ∧ c ≤ '9' then digitsToNatAux cs (acc * 10 + (c.toNat - '0'.toNat))
    else none

/-- Python `int(s)` on a whitespace-free token (server commands are already
split on whitespace): optional sign followed by decimal digits; anything
else raises, modelled as `none`. -/
def parseInt (s : String) : Option Int :=
  match s.data with
  | [] => none
  | '-' :: cs => if cs = [] then none else (digitsToNatAux cs 0).map (fun n => -(n : Int))
  | '+' :: cs => if cs = [] then none else (digitsToNatAux cs 0).map (fun n => (n : Int))
  | cs => (digitsToNatAux cs 0).map (fun n => (n : Int))

/-- Python `" | ".join(l)`. -/
def joinBar : List String → String
  | [] => ""
  | [c] => c
  | c :: cs => c ++ " | " ++ joinBar cs

/- ----------------------------------------------------------------
   Deck (src/unoservers.py, class Deck)
   ---------------------------------------------------------------- -/

def suits : List String := ["Red", "Yellow", "Green", "Blue"]

def values : List String :=
  ["0", "1", "2", "3", "4", "5", "6", "7", "8", "9", "Skip", "Reverse", "Draw Two"]

/-- The 60 card tokens of a fresh deck, before shuffling:
`[f"{v} {s}" for s in suits for v in values]` plus
`["Wild", "Wild Draw Four"] * 4`. -/
def allCards : List String :=
  (suits.map (fun s => values.map (fun v => v ++ " " ++ s))).flatten ++
    (List.replicate 4 ["Wild", "Wild Draw Four"]).flatten

/-- Models `Deck.draw_card`: `self.cards.pop()` removes and returns the last
element, or returns `None` when the deck is empty. -/
def drawCard (cards : List String) : Option String × List String :=
  match cards.getLast? with
  | none => (none, cards)
  | some c => (some c, cards.dropLast)

/-- A loop of `k` iterations of `c = deck.draw_card(); if c: drawn.append(c)`:
returns the cards actually obtained (in draw order) and the remaining deck.
Once the deck is empty every further iteration draws nothing, so stopping at
the first empty draw is equivalent to finishing the loop. -/
def drawN : Nat → List String → List String × List String
  | 0, d => ([], d)
  | Nat.succ k, d =>
    match drawCard d with
    | (none, d') => ([], d')
    | (some c, d') => (c :: (drawN k d').1, (drawN k d').2)

/- ----------------------------------------------------------------
   Room state (the local variables of `game_room_process`)
   ---------------------------------------------------------------- -/

structure RoomState where
  deck : List String
  /-- discard pile; top is the last element -/
  discard : List String
  /-- player ids in join order -/
  players : List String
  /-- addr → hand, insertion-ordered association list modelling the dict -/
  hands : List (String × List String)
  /-- a `Nat`: the Python int stays nonnegative because every write is
  either a `%` by a positive count or a `max(0, ...)` -/
  turn_index : Nat
  direction : Int
  activeColor : Option String
  deriving Repr, DecidableEq

/-- Outbound messages of the room process: `("send", addr, text)` and
`("broadcast", text)` on the pipe. -/
inductive Msg where
  | sendTo (addr text : String)
  | broadcast (text : String)
  deriving Repr, DecidableEq

/-- Inbound events of the room process: `("new_client", addr)` and
`("command", addr, text)`. -/
inductive Event where
  | newClient (addr : String)
  | command (addr text : String)
  deriving Repr, DecidableEq

/-- Initial local state of `game_room_process`, with the shuffled deck
abstracted as an arbitrary list. -/
def initState (deck : List String) : RoomState :=
  { deck := deck, discard := [], players := [], hands := [],
    turn_index := 0, direction := 1, activeColor := none }

/- dict operations on the `hands` association list -/

def handLookup : List (String × List String) → String → Option (List String)
  | [], _ => none
  | (k, v) :: t, a => if k = a then some v else handLookup t a

def handSet : List (String × List String) → String → List String → List (String × List String)
  | [], a, v => [(a, v)]
  | (k, w) :: t, a, v => if k = a then (k, v) :: t else (k, w) :: handSet t a v

def handErase : List (String × List String) → String → List (String × List String)
  | [], _ => []
  | (k, w) :: t, a => if k = a then t else (k, w) :: handErase t a

/-- Models `players.index(addr)`: index of the first occurrence. -/
def idxOfAux : List String → String → Nat
  | [], _ => 0
  | x :: t, a => if x = a then 0 else idxOfAux t a + 1

/-- Renders `discard[-1] if discard else None` as the source f-strings do. -/
def topStr (discard : List String) : String := discard.getLast?.getD "None"

/-- how Python renders `active_color` inside an f-string. -/
def optStr : Option String → String
  | none => "None"
  | some c => c

/-- Models `send_turn_notification`. -/
def turnNote (room : String) (s : RoomState) : List Msg :=
  if s.players = [] then []
  else
    let cur := s.players.getD s.turn_index ""
    [Msg.broadcast ("[ROOM " ++ room ++ "] It\x27s " ++ cur ++ "\x27s turn. Top discard: "
        ++ topStr s.discard),
     Msg.sendTo cur "YOUR_TURN"]

/-- Models `advance_turn(steps)`: `turn_index = (turn_index + direction * steps) % n`
followed by the turn notification.  Python `%` with a positive modulus agrees
with `Int.emod`. -/
def advanceTurn (room : String) (s : RoomState) (steps : Int) : RoomState × List Msg :=
  if s.players = [] then (s, [])
  else
    let n : Int := s.players.length
    let s' := { s with turn_index := (((s.turn_index : Int) + s.direction * steps) % n).toNat }
    (s', turnNote room s')

/-- Models `remove_player(addr)`; the `max(0, turn_index - 1)` is Nat subtraction. -/
def removePlayer (s : RoomState) (addr : String) : RoomState :=
  if addr ∈ s.players then
    let idx := idxOfAux s.players addr
    let players' := s.players.eraseIdx idx
    { s with players := players',
             hands := handErase s.hands addr,
             turn_index :=
               if idx < s.turn_index ∨ players'.length ≤ s.turn_index
               then s.turn_index - 1 else s.turn_index }
  else s

/-- Models `card_matches(card, top_card, current_color)` (src/unoservers.py:109).
The source's second test `top_card.startswith("Wild Draw Four")` is subsumed
by `top_card.startswith("Wild")` and is dropped. -/
def card_matches (card : String) (top_card : Option String) (current_color : Option String) :
    Bool :=
  match top_card with
  | none => true
  | some top =>
    if strStarts card "Wild" then true
    else
      match rsplit1 card with
      | none => false
      | some (val, col) =>
        match rsplit1 top with
        | none =>
          match current_color with
          | some cc => col == cc
          | none => true
        | some (top_val, top_col) =>
          if strStarts top "Wild" then
            match current_color with
            | some cc => col == cc || val == top_val
            | none => true
          else col == top_col || val == top_val

def isValidColor (c : String) : Bool :=
  c == "Red" || c == "Green" || c == "Blue" || c == "Yellow"

/-- Lines 224-301 of src/unoservers.py: the effect of the already-placed card
`played` (state `s1` has the card removed from the hand, appended to the
discard pile, and `active_color` reset to `None`). -/
def applyCardEffect (room : String) (s1 : RoomState) (addr : String) (parts : List String)
    (played : String) : RoomState × List Msg :=
  if strStarts played "Wild" then
    let chosen? : Option String :=
      if 3 ≤ parts.length then
        let cc := capitalizePy (parts.getD 2 "")
        if isValidColor cc then some cc else none
      else some "Red"
    match chosen? with
    | none =>
      -- the invalid-color error leaves the already-mutated `s1` in place
      (s1, [Msg.sendTo addr "ERROR invalid color choice. Use Red, Green, Blue, Yellow."])
    | some chosen =>
      let s2 := { s1 with activeColor := some chosen }
      let m2 := [Msg.broadcast ("[ROOM " ++ room ++ "] " ++ addr ++ " chose color " ++ chosen)]
      if played = "Wild Draw Four" then
        let p3 := advanceTurn room s2 0
        if p3.1.players = [] then
          -- `next_idx is None`: falls through to the plain-Wild advance
          let p4 := advanceTurn room p3.1 1
          (p4.1, m2 ++ p3.2 ++ p4.2)
        else
          let s3 := p3.1
          let nidx := (((s3.turn_index : Int) + s3.direction) % (s3.players.length : Int)).toNat
          let nextP := s3.players.getD nidx ""
          let drawn := (drawN 4 s3.deck).1
          let s4 := { s3 with deck := (drawN 4 s3.deck).2,
                              hands := handSet s3.hands nextP
                                ((handLookup s3.hands nextP).getD [] ++ drawn) }
          let m4 := [Msg.sendTo nextP ("DRAWN " ++ joinBar drawn),
                     Msg.broadcast ("[ROOM " ++ room ++ "] " ++ nextP ++ " drew 4 cards (penalty).")]
          let p5 := advanceTurn room s4 2
          (p5.1, m2 ++ p3.2 ++ m4 ++ p5.2)
      else
        let p3 := advanceTurn room s2 1
        (p3.1, m2 ++ p3.2)
  else
    let val := match rsplit1 played with
      | some (v, _) => v
      | none => played
    if val = "Skip" then advanceTurn room s1 2
    else if val = "Reverse" then
      if s1.players.length = 2 then advanceTurn room s1 2
      else advanceTurn room { s1 with direction := -s1.direction } 1
    else if val = "Draw Two" then
      if s1.players = [] then advanceTurn room s1 2
      else
        let nidx := (((s1.turn_index : Int) + s1.direction) % (s1.players.length : Int)).toNat
        let nextP := s1.players.getD nidx ""
        let drawn := (drawN 2 s1.deck).1
        let s2 := { s1 with deck := (drawN 2 s1.deck).2,
                            hands := handSet s1.hands nextP
                              ((handLookup s1.hands nextP).getD [] ++ drawn) }
        let m2 := [Msg.sendTo nextP ("DRAWN " ++ joinBar drawn),
                   Msg.broadcast ("[ROOM " ++ room ++ "] " ++ nextP ++ " drew 2 cards (penalty).")]
        let p3 := advanceTurn room s2 2
        (p3.1, m2 ++ p3.2)
    else advanceTurn room s1 1

/-- Models the `play <index> [color]` branch (src/unoservers.py:199). -/
def playCmd (room : String) (s : RoomState) (addr : String) (parts : List String) :
    RoomState × List Msg :=
  let hand := (handLookup s.hands addr).getD []
  if parts.length < 2 then (s, [Msg.sendTo addr "ERROR usage: play <index> [color-for-wild]"])
  else
    match parseInt (parts.getD 1 "") with
    | none => (s, [Msg.sendTo addr "ERROR index must be a number"])
    | some iv =>
      let idx : Int := iv - 1
      if idx < 0 ∨ (hand.length : Int) ≤ idx then
        (s, [Msg.sendTo addr "ERROR invalid card index"])
      else
        let i := idx.toNat
        let card := hand.getD i ""
        if card_matches card s.discard.getLast? s.activeColor then
          let s1 := { s with hands := handSet s.hands addr (hand.eraseIdx i),
                             discard := s.discard ++ [card],
                             activeColor := none }
          let m1 := [Msg.broadcast ("[ROOM " ++ room ++ "] " ++ addr ++ " played " ++ card)]
          let p2 := applyCardEffect room s1 addr parts card
          (p2.1, m1 ++ p2.2)
        else
          (s, [Msg.sendTo addr ("ERROR You cannot play " ++ card ++ " on top of "
                ++ topStr s.discard ++ " (active color: " ++ optStr s.activeColor ++ ")")])

/-- Models the `draw` branch (src/unoservers.py:303). -/
def drawCmd (room : String) (s : RoomState) (addr : String) : RoomState × List Msg :=
  match drawCard s.deck with
  | (some c, deck') =>
    let s1 := { s with deck := deck',
                       hands := handSet s.hands addr (((handLookup s.hands addr).getD []) ++ [c]) }
    let m1 := [Msg.sendTo addr ("DRAWN " ++ c),
               Msg.broadcast ("[ROOM " ++ room ++ "] " ++ addr ++ " drew a card.")]
    let p2 := advanceTurn room s1 1
    (p2.1, m1 ++ p2.2)
  | (none, _) =>
    let p2 := advanceTurn room s 1
    (p2.1, [Msg.sendTo addr "ERROR No cards left to draw."] ++ p2.2)

/-- The `("command", addr, text)` branch of the room loop
(src/unoservers.py:161). -/
def handleCommand (room : String) (s : RoomState) (addr : String) (text : String) :
    RoomState × List Msg :=
  let command := stripStr text
  if addr ∉ s.players then (s, [Msg.sendTo addr "ERROR You are not in this room."])
  else if (handLookup s.hands addr).isNone then (s, [Msg.sendTo addr "ERROR No hand found."])
  else if command = "" then (s, [])
  else
    let parts := splitWs command
    let verb := lowerStr (parts.getD 0 "")
    if verb = "hand" ∨ verb = "myhand" then
      (s, [Msg.sendTo addr ("HAND " ++ joinBar ((handLookup s.hands addr).getD []))])
    else if verb = "look" ∨ verb = "top" ∨ verb = "topcard" then
      (s, [Msg.sendTo addr ("TOP " ++ topStr s.discard)])
    else if verb = "exit" then
      (removePlayer s addr,
       [Msg.broadcast ("[ROOM " ++ room ++ "] Player " ++ addr ++ " left the room.")])
    else if s.players ≠ [] ∧ s.players.getD s.turn_index "" ≠ addr then
      (s, [Msg.sendTo addr "ERROR Not your turn."])
    else if verb = "play" then playCmd room s addr parts
    else if verb = "draw" then drawCmd room s addr
    else (s, [Msg.sendTo addr "ERROR Unknown command. Use play <index> [color], draw, hand, top, exit."])

/-- Models `deal_initial_cards(addr)`. -/
def dealInitial (s : RoomState) (addr : String) : RoomState :=
  { s with deck := (drawN 7 s.deck).2,
           hands := handSet s.hands addr (drawN 7 s.deck).1 }

/-- Models `start_match_if_ready()`.  When the deck is already empty the source
breaks out of its while loop with the discard still empty and then indexes
`discard[-1]`, raising IndexError; at that point the state is unchanged. -/
def startMatchIfReady (room : String) (s : RoomState) : RoomState × List Msg :=
  if 2 ≤ s.players.length ∧ s.discard = [] then
    match drawCard s.deck with
    | (some top, deck') =>
      let s' := { s with deck := deck', discard := s.discard ++ [top] }
      (s', Msg.broadcast ("[ROOM " ++ room ++ "] Match started. Top of discard: "
             ++ topStr s'.discard) :: turnNote room s')
    | (none, _) =>
      (s, [Msg.broadcast ("[ROOM " ++ room ++ "] Match started. Top of discard: "
             ++ topStr s.discard)])
  else (s, [])

/-- The `("new_client", addr)` branch of the room loop. -/
def newClient (room : String) (s : RoomState) (addr : String) : RoomState × List Msg :=
  if addr ∈ s.players then (s, [])
  else
    let s1 := dealInitial { s with players := s.players ++ [addr] } addr
    let m1 := [Msg.broadcast ("[ROOM " ++ room ++ "] Player " ++ addr ++ " joined the room."),
               Msg.sendTo addr ("HAND " ++ joinBar ((handLookup s1.hands addr).getD [])),
               Msg.sendTo addr "INFO You have been dealt 7 cards."]
    let p2 := startMatchIfReady room s1
    (p2.1, m1 ++ p2.2)

/-- One inbound event of the room loop. -/
def step (room : String) (s : RoomState) (ev : Event) : RoomState × List Msg :=
  match ev with
  | Event.newClient addr => newClient room s addr
  | Event.command addr text => handleCommand room s addr text

/-- The state after processing a sequence of inbound events from the initial
state. -/
def runEvents (room : String) (s : RoomState) (evs : List Event) : RoomState :=
  evs.foldl (fun st e => (step room st e).1) s

/- ----------------------------------------------------------------
   Broker registry (src/broker.py, handle_connection)
   ---------------------------------------------------------------- -/

/-- One entry of the broker's `workers` dict. -/
structure WorkerRec where
  host : String
  port : Int
  load : Nat
  last_seen : Int
  deriving Repr, DecidableEq

inductive BrokerResp where
  | assign (host : String) (port : Int) (room : String)
  | noWorkers
  deriving Repr, DecidableEq

/-- The stale-worker sweep at the top of `CLIENT_REQ`: pop every worker with
`now - last_seen > 120`. -/
def evictStale (now : Int) (ws : List (String × WorkerRec)) : List (String × WorkerRec) :=
  ws.filter (fun p => decide (now - p.2.last_seen ≤ 120))

/-- Python `min(items, key=load)`: scans left to right keeping the current
best, replacing it only on a strictly smaller load, so ties go to the
earliest (insertion-order) entry. -/
def pickLeastFrom (best : String × WorkerRec) : List (String × WorkerRec) → String × WorkerRec
  | [] => best
  | w :: t => pickLeastFrom (if w.2.load < best.2.load then w else best) t

def pickLeast : List (String × WorkerRec) → Option (String × WorkerRec)
  | [] => none
  | w :: t => some (pickLeastFrom w t)

/-- Models `workers[chosen]["load"] += 1; workers[chosen]["last_seen"] = time.time()`
on the (unique) entry with the chosen id. -/
def bump (now : Int) (wid : String) : List (String × WorkerRec) → List (String × WorkerRec)
  | [] => []
  | (k, r) :: t =>
    if k = wid then (k, { r with load := r.load + 1, last_seen := now }) :: t
    else (k, r) :: bump now wid t

/-- The `CLIENT_REQ` branch of `handle_connection` (src/broker.py:44):
evict stale workers, reply `NO_WORKERS` if none remain, otherwise assign the
least-loaded worker.  `hint` is `parts[1] if len(parts) > 1 else "auto"`; the
registry dict is modelled as an insertion-ordered association list.  The
source reads `time.time()` a second time for the refresh; both reads are
modelled as the same instant `now`. -/
def clientReq (now : Int) (ws : List (String × WorkerRec)) (hint : String) :
    List (String × WorkerRec) × BrokerResp :=
  let live := evictStale now ws
  match pickLeast live with
  | none => (live, BrokerResp.noWorkers)
  | some (wid, r) => (bump now wid live, BrokerResp.assign r.host r.port hint)

/- ----------------------------------------------------------------
   Invariants of the room state
   ---------------------------------------------------------------- -/

/-- The property claimed by C3: `0 ≤ turn_index < len(players)` whenever
`players` is non-empty (the lower bound is inherent in `turn_index : Nat`,
and holds in the source because every write to `turn_index` is a `%` by a
positive count or a `max(0, ...)`). -/
def turnIndexOK (s : RoomState) : Prop :=
  s.players ≠ [] → s.turn_index < s.players.length

/-- The inductive strengthening: when the room is empty the pointer is 0. -/
def roomWF (s : RoomState) : Prop :=
  turnIndexOK s ∧ (s.players = [] → s.turn_index = 0)

/-- Concrete room used for C1: it is player A's turn and A holds a Wild. -/
def c1state : RoomState :=
  { deck := ["9 Blue"], discard := ["5 Red"], players := ["A", "B"],
    hands := [("A", ["Wild", "3 Blue"]), ("B", ["1 Red"])],
    turn_index := 0, direction := 1, activeColor := none }

/-- Concrete room used for C2: A holds a single card that matches the top of
the discard pile by value. -/
def c2state : RoomState :=
  { deck := ["2 Green"], discard := ["7 Blue"], players := ["A", "B"],
    hands := [("A", ["7 Red"]), ("B", ["1 Red"])],
    turn_index := 0, direction := 1, activeColor := none }

/-- The turn-pointer adjustment exactly as claim C4 words it: decrement by
one (clamped at zero) exactly when the removed seat index was less than or
equal to the current turn pointer. -/
def exitTurnClaim (idx turn : Nat) : Nat := if idx ≤ turn then turn - 1 else turn

/-- Concrete room used for C4: four seats, the pointer on seat 1 ("B"). -/
def c4state : RoomState :=
  { deck := [], discard := ["5 Red"], players := ["A", "B", "C", "D"],
    hands := [("A", ["1 Red"]), ("B", ["2 Red"]), ("C", ["3 Red"]), ("D", ["4 Red"])],
    turn_index := 1, direction := 1, activeColor := none }

/-- The two colorless tokens of the deck. -/
def isWildTok (c : String) : Bool := c == "Wild" || c == "Wild Draw Four"

/-- The match rule exactly as claim C5 words it (spec side of the refinement
comparison): true iff the card is a Wild or Wild Draw Four; or the top is
absent; or the top is a colored card and the card shares its color or its
value; or the top is a Wild with active_color set and the card's color equals
active_color or the card's value equals the top's literal value token (the
first component of the top's last-space split; "Wild" has none). -/
def cardMatchesClaim (card : String) (top : Option String) (ac : Option String) : Bool :=
  isWildTok card ||
  (match top with
   | none => true
   | some t =>
     (!(isWildTok t) &&
       (match rsplit1 card, rsplit1 t with
        | some (v, c), some (tv, tc) => c == tc || v == tv
        | _, _ => false)) ||
     (isWildTok t && ac.isSome &&
       (match rsplit1 card with
        | some (v, c) =>
          (c == ac.getD "") ||
            (match rsplit1 t with
             | some (tv, _) => v == tv
             | none => false)
        | none => false)))

/-- Claim C5 amended by the one case the counterexample exposes: a Wild/Wild
Draw Four top with active_color unset also makes every card playable. -/
def cardMatchesAmended (card : String) (top : Option String) (ac : Option String) : Bool :=
  cardMatchesClaim card top ac ||
    (match top with
     | some t => isWildTok t && ac.isNone
     | none => false)

/-- Concrete room used for the C8 witness. -/
def c8state : RoomState :=
  { deck := ["5 Blue"], discard := ["3 Green"], players := ["A", "B"],
    hands := [("A", ["1 Red"]), ("B", ["2 Red"])],
    turn_index := 0, direction := 1, activeColor := none }

/-- The room state right after a successful placement (the `s1` of `playCmd`):
card removed from the hand, appended to the discard pile, `active_color`
cleared. -/
def placedState (s : RoomState) (addr : String) (hand : List String) (i : Nat) : RoomState :=
  { s with hands := handSet s.hands addr (hand.eraseIdx i),
           discard := s.discard ++ [hand.getD i ""],
           activeColor := none }

/-- The success conditions of `play <index> ...` from `addr`: seated with hand
`hand`, their turn, the text splits into a play command whose index token
parses to `i+1` with `i` in range, and the selected card matches the top of
the discard pile under the active color. -/
@[reducible] def playSucceeds (s : RoomState) (addr text istr : String) (rest : List String)
    (i : Nat) (hand : List String) : Prop :=
  addr ∈ s.players ∧
  handLookup s.hands addr = some hand ∧
  s.players.getD s.turn_index "" = addr ∧
  splitWs (stripStr text) = "play" :: istr :: rest ∧
  parseInt istr = some ((i : Int) + 1) ∧
  i < hand.length ∧
  card_matches (hand.getD i "") s.discard.getLast? s.activeColor = true

/-- Concrete rooms used for the C9 witness. -/
def c9aState : RoomState :=
  { deck := [], discard := ["3 Red"], players := ["A", "B", "C"],
    hands := [("A", ["Skip Red", "1 Blue"]), ("B", ["2 Red"]), ("C", ["4 Red"])],
    turn_index := 0, direction := 1, activeColor := none }

def c9bState : RoomState :=
  { deck := [], discard := ["3 Red"], players := ["A", "B"],
    hands := [("A", ["Reverse Red"]), ("B", ["2 Red"])],
    turn_index := 0, direction := 1, activeColor := none }

def c9bSkipState : RoomState :=
  { c9bState with hands := handSet c9bState.hands "A" ["Skip Red"] }

def c9cState : RoomState :=
  { deck := [], discard := ["3 Red"], players := ["A", "B", "C"],
    hands := [("A", ["Reverse Red"]), ("B", ["2 Red"]), ("C", ["4 Red"])],
    turn_index := 0, direction := 1, activeColor := none }

/-- Concrete room used for the C6 counterexample: the deck is empty when the
Wild Draw Four is played. -/
def c6state : RoomState :=
  { deck := [], discard := ["3 Blue"], players := ["A", "B"],
    hands := [("A", ["Wild Draw Four"]), ("B", ["1 Red"])],
    turn_index := 0, direction := 1, activeColor := none }

/-- Concrete room used for the C6 witness: four cards remain in the deck. -/
def c6wState : RoomState :=
  { deck := ["c1", "c2", "c3", "c4"], discard := ["3 Blue"], players := ["A", "B"],
    hands := [("A", ["Wild Draw Four"]), ("B", ["1 Red"])],
    turn_index := 0, direction := 1, activeColor := none }

/-- Concrete registry used for the C7 witness (end-to-end scenario C of the
spec): two live workers with loads 3 and 0. -/
def c7ws : List (String × WorkerRec) :=
  [("worker-1", { host := "h1", port := 5555, load := 3, last_seen := 50 }),
   ("worker-2", { host := "h2", port := 5556, load := 0, last_seen := 60 })]

lemma roomWF_of_fields {s s' : RoomState} (hp : s'.players = s.players)
    (ht : s'.turn_index = s.turn_index) (h : roomWF s) : roomWF s' := by
  unfold roomWF turnIndexOK at *
  rw [hp, ht]
  exact h

lemma advanceTurn_roomWF (room : String) (s : RoomState) (k : Int) (h : roomWF s) :
    roomWF (advanceTurn room s k).1 := by
  unfold advanceTurn
  split
  · exact h
  · rename_i hne
    have hn : 0 < s.players.length := List.length_pos.mpr hne
    have hnz : (s.players.length : Int) ≠ 0 := by exact_mod_cast hn.ne'
    have h1 : (0 : Int) ≤ ((s.turn_index : Int) + s.direction * k) % (s.players.length : Int) :=
      Int.emod_nonneg _ hnz
    have h2 : ((s.turn_index : Int) + s.direction * k) % (s.players.length : Int)
        < (s.players.length : Int) :=
      Int.emod_lt_of_pos _ (by exact_mod_cast hn)
    constructor
    · intro _
      simp only [List.length]
      omega
    · intro he
      exact absurd he hne

lemma idxOfAux_lt_length {l : List String} {a : String} (h : a ∈ l) :
    idxOfAux l a < l.length := by
  induction l with
  | nil => simp at h
  | cons x t ih =>
    simp only [idxOfAux, List.length_cons]
    by_cases hx : x = a
    · simp [hx]
    · rw [if_neg hx]
      have hm : a ∈ t := by
        rcases List.mem_cons.mp h with h1 | h1
        · exact absurd h1.symm hx
        · exact h1
      have := ih hm
      omega

lemma removePlayer_roomWF (s : RoomState) (addr : String) (h : roomWF s) :
    roomWF (removePlayer s addr) := by
  unfold removePlayer
  split
  · rename_i hmem
    have hidx : idxOfAux s.players addr < s.players.length := idxOfAux_lt_length hmem
    have hne : s.players ≠ [] := by
      intro he
      rw [he] at hmem
      simp at hmem
    have hturn : s.turn_index < s.players.length := h.1 hne
    have hlen : (s.players.eraseIdx (idxOfAux s.players addr)).length
        = s.players.length - 1 := by
      rw [List.length_eraseIdx]
      simp [hidx]
    constructor
    · intro hne'
      have hpos : 0 < (s.players.eraseIdx (idxOfAux s.players addr)).length :=
        List.length_pos.mpr hne'
      simp only
      split <;> omega
    · intro he'
      have h0 : (s.players.eraseIdx (idxOfAux s.players addr)).length = 0 := by
        simp only at he'
        rw [he']
        rfl
      simp only
      split <;> omega
  · exact h

lemma applyCardEffect_roomWF (room : String) (s1 : RoomState) (addr : String)
    (parts : List String) (played : String) (h : roomWF s1) :
    roomWF (applyCardEffect room s1 addr parts played).1 := by
  unfold applyCardEffect
  simp only
  repeat' split
  all_goals
    first
    | exact h
    | exact advanceTurn_roomWF _ _ _ h
    | exact advanceTurn_roomWF _ _ _ (roomWF_of_fields rfl rfl h)
    | exact advanceTurn_roomWF _ _ _
        (advanceTurn_roomWF _ _ _ (roomWF_of_fields rfl rfl h))
    | exact advanceTurn_roomWF _ _ _
        (roomWF_of_fields rfl rfl
          (advanceTurn_roomWF _ _ _ (roomWF_of_fields rfl rfl h)))

lemma playCmd_roomWF (room : String) (s : RoomState) (addr : String) (parts : List String)
    (h : roomWF s) : roomWF (playCmd room s addr parts).1 := by
  unfold playCmd
  simp only
  repeat' split
  all_goals
    first
    | exact h
    | exact applyCardEffect_roomWF _ _ _ _ _ (roomWF_of_fields rfl rfl h)

lemma drawCmd_roomWF (room : String) (s : RoomState) (addr : String) (h : roomWF s) :
    roomWF (drawCmd room s addr).1 := by
  unfold drawCmd
  simp only
  repeat' split
  all_goals
    first
    | exact advanceTurn_roomWF _ _ _ h
    | exact advanceTurn_roomWF _ _ _ (roomWF_of_fields rfl rfl h)

lemma handleCommand_roomWF (room : String) (s : RoomState) (addr text : String)
    (h : roomWF s) : roomWF (handleCommand room s addr text).1 := by
  unfold handleCommand
  simp only
  repeat' split
  all_goals
    first
    | exact h
    | exact removePlayer_roomWF _ _ h
    | exact playCmd_roomWF _ _ _ _ h
    | exact drawCmd_roomWF _ _ _ h

lemma startMatchIfReady_roomWF (room : String) (s : RoomState) (h : roomWF s) :
    roomWF (startMatchIfReady room s).1 := by
  unfold startMatchIfReady
  split
  · split
    · exact roomWF_of_fields rfl rfl h
    · exact h
  · exact h

lemma newClient_roomWF (room : String) (s : RoomState) (addr : String) (h : roomWF s) :
    roomWF (newClient room s addr).1 := by
  unfold newClient
  split
  · exact h
  · apply startMatchIfReady_roomWF
    unfold dealInitial
    constructor
    · intro _
      simp only [List.length_append, List.length_cons, List.length_nil]
      rcases h with ⟨h1, h2⟩
      by_cases hp : s.players = []
      · rw [h2 hp]
        omega
      · have := h1 hp
        omega
    · intro he
      simp at he

lemma step_roomWF (room : String) (s : RoomState) (ev : Event) (h : roomWF s) :
    roomWF (step room s ev).1 := by
  cases ev with
  | newClient addr => exact newClient_roomWF _ _ _ h
  | command addr text => exact handleCommand_roomWF _ _ _ _ h

lemma initState_roomWF (deck : List String) : roomWF (initState deck) := by
  constructor
  · intro h
    simp [initState] at h
  · intro _
    rfl

lemma runEvents_roomWF (room : String) (s : RoomState) (evs : List Event) (h : roomWF s) :
    roomWF (runEvents room s evs) := by
  induction evs generalizing s with
  | nil => exact h
  | cons e t ih => exact ih _ (step_roomWF room s e h)

/- ----------------------------------------------------------------
   Claim theorems
   ---------------------------------------------------------------- -/

/-- C3: the invariant `0 ≤ turn_index < len(players)` whenever `players` is
non-empty (the lower bound is inherent in `turn_index : Nat`) holds in the
initial room state, is preserved — in its inductive strengthening `roomWF` —
by every inbound event the room engine processes (NewPlayer, any command,
including every erroneous one), and consequently holds after every sequence
of inbound events. -/
theorem C3_turn_index_invariant :
    (∀ deck, turnIndexOK (initState deck)) ∧
    (∀ room s ev, roomWF s → roomWF (step room s ev).1) ∧
    (∀ deck room evs, turnIndexOK (runEvents room (initState deck) evs)) :=
  ⟨fun deck => (initState_roomWF deck).1,
   fun room s ev h => step_roomWF room s ev h,
   fun deck room evs => (runEvents_roomWF room _ evs (initState_roomWF deck)).1⟩

/-- Witness for C3 at a concrete state and event. -/
theorem C3_turn_index_invariant_witness :
    roomWF (step "r" (initState ["0 Red"]) (Event.newClient "A")).1 :=
  C3_turn_index_invariant.2.1 "r" (initState ["0 Red"]) (Event.newClient "A")
    ⟨fun h => absurd rfl h, fun _ => rfl⟩

/-- C10: a `Command` event whose sender is not seated produces exactly one
error line, sent only to that sender, and leaves the room state unchanged,
regardless of the command text. -/
theorem C10_unknown_sender_rejected (room : String) (s : RoomState) (addr text : String)
    (h : addr ∉ s.players) :
    step room s (Event.command addr text)
      = (s, [Msg.sendTo addr "ERROR You are not in this room."]) := by
  simp only [step, handleCommand]
  rw [if_pos h]

/-- Witness for C10 at a concrete state and command. -/
theorem C10_unknown_sender_rejected_witness :
    step "r" (initState ["0 Red"]) (Event.command "Z" "play 1")
      = (initState ["0 Red"], [Msg.sendTo "Z" "ERROR You are not in this room."]) :=
  C10_unknown_sender_rejected "r" (initState ["0 Red"]) "Z" "play 1" (by decide)

lemma handLookup_eq_none_of_not_mem (t : List (String × List String)) (a : String)
    (h : a ∉ t.map Prod.fst) : handLookup t a = none := by
  induction t with
  | nil => rfl
  | cons p r ih =>
    obtain ⟨k, v⟩ := p
    simp only [List.map_cons, List.mem_cons] at h
    push_neg at h
    simp only [handLookup]
    rw [if_neg (fun he => h.1 he.symm)]
    exact ih h.2

lemma handLookup_handErase_self (hs : List (String × List String)) (a : String)
    (hnd : (hs.map Prod.fst).Nodup) : handLookup (handErase hs a) a = none := by
  induction hs with
  | nil => rfl
  | cons p t ih =>
    obtain ⟨k, v⟩ := p
    simp only [List.map_cons, List.nodup_cons] at hnd
    simp only [handErase]
    by_cases hk : k = a
    · rw [if_pos hk]
      exact handLookup_eq_none_of_not_mem t a (hk ▸ hnd.1)
    · rw [if_neg hk]
      simp only [handLookup]
      rw [if_neg hk]
      exact ih hnd.2

/-- Reduction of `handleCommand` for an `exit` command from a seated player
with a hand. -/
lemma handleCommand_exit (room : String) (s : RoomState) (addr text : String)
    (rest : List String) (hand : List String)
    (h1 : addr ∈ s.players) (hh : handLookup s.hands addr = some hand)
    (hp : splitWs (stripStr text) = "exit" :: rest) :
    handleCommand room s addr text
      = (removePlayer s addr,
         [Msg.broadcast ("[ROOM " ++ room ++ "] Player " ++ addr ++ " left the room.")]) := by
  have hc : ¬ (stripStr text = "") := by
    intro he
    rw [he] at hp
    exact List.cons_ne_nil _ _ (hp.symm.trans rfl)
  simp only [handleCommand, hp, hh]
  rw [if_neg (not_not_intro h1), if_neg (by simp), if_neg hc]
  simp only [List.getD_cons_zero]
  rw [if_neg (by decide), if_neg (by decide), if_pos (show lowerStr "exit" = "exit" from rfl)]

/-- C1 (code bug): `play 1 Purple` on a Wild reports the invalid-color error
to the caller only, but the room state is NOT as it was before the command:
the Wild has already been removed from A's hand and pushed onto the discard
pile (the source validates the color argument only after mutating). -/
theorem C1_invalid_wild_color_mutates_state :
    (step "r" c1state (Event.command "A" "play 1 Purple")).2
      = [Msg.broadcast "[ROOM r] A played Wild",
         Msg.sendTo "A" "ERROR invalid color choice. Use Red, Green, Blue, Yellow."] ∧
    (step "r" c1state (Event.command "A" "play 1 Purple")).1 ≠ c1state ∧
    (step "r" c1state (Event.command "A" "play 1 Purple")).1.hands
      = [("A", ["3 Blue"]), ("B", ["1 Red"])] ∧
    (step "r" c1state (Event.command "A" "play 1 Purple")).1.discard = ["5 Red", "Wild"] ∧
    (step "r" c1state (Event.command "A" "play 1 Purple")).1.turn_index = c1state.turn_index := by
  decide

/-- C2 (code bug): a successful play that empties the caller's hand does NOT
end the match in the room engine: the emitted messages are exactly the
ordinary play messages (no win announcement of any kind), and the room still
accepts the next turn-advancing command — B's subsequent `draw` is processed
normally (one card drawn, turn advanced). -/
theorem C2_no_terminal_state_after_winning_play :
    (step "r" c2state (Event.command "A" "play 1")).2
      = [Msg.broadcast "[ROOM r] A played 7 Red",
         Msg.broadcast "[ROOM r] It\x27s B\x27s turn. Top discard: 7 Red",
         Msg.sendTo "B" "YOUR_TURN"] ∧
    handLookup (step "r" c2state (Event.command "A" "play 1")).1.hands "A" = some [] ∧
    (step "r" (step "r" c2state (Event.command "A" "play 1")).1
        (Event.command "B" "draw")).1.hands
      = [("A", []), ("B", ["1 Red", "2 Green"])] ∧
    (step "r" (step "r" c2state (Event.command "A" "play 1")).1
        (Event.command "B" "draw")).1.turn_index = 0 ∧
    (step "r" (step "r" c2state (Event.command "A" "play 1")).1
        (Event.command "B" "draw")).2
      = [Msg.sendTo "B" "DRAWN 2 Green",
         Msg.broadcast "[ROOM r] B drew a card.",
         Msg.broadcast "[ROOM r] It\x27s A\x27s turn. Top discard: 7 Red",
         Msg.sendTo "A" "YOUR_TURN"] := by
  decide

/-- C4 counterexample: when the seat at the pointer (and not the last seat)
exits, the source keeps `turn_index` unchanged (1), while the claim — seat
index ≤ pointer forces a decrement — demands 0. -/
theorem C4_counterexample :
    (step "r" c4state (Event.command "B" "exit")).1.players = ["A", "C", "D"] ∧
    (step "r" c4state (Event.command "B" "exit")).1.turn_index = 1 ∧
    idxOfAux c4state.players "B" ≤ c4state.turn_index ∧
    (step "r" c4state (Event.command "B" "exit")).1.turn_index
      ≠ exitTurnClaim (idxOfAux c4state.players "B") c4state.turn_index := by
  decide

/-- C4 amended: an `exit` command from a seated player removes the player and
their hand, broadcasts the departure, changes no other room component (so the
match does not end), and decrements `turn_index` by one (clamped at zero)
exactly when the removed seat index was strictly below the turn pointer or
the pointer fell off the end of the shrunken seat list. -/
theorem C4_exit_semantics (room : String) (s : RoomState) (addr text : String)
    (rest : List String) (hand : List String)
    (h1 : addr ∈ s.players)
    (hh : handLookup s.hands addr = some hand)
    (hk : (s.hands.map Prod.fst).Nodup)
    (hp : splitWs (stripStr text) = "exit" :: rest) :
    step room s (Event.command addr text)
      = (removePlayer s addr,
         [Msg.broadcast ("[ROOM " ++ room ++ "] Player " ++ addr ++ " left the room.")]) ∧
    (removePlayer s addr).players = s.players.eraseIdx (idxOfAux s.players addr) ∧
    handLookup (removePlayer s addr).hands addr = none ∧
    (removePlayer s addr).turn_index
      = (if idxOfAux s.players addr < s.turn_index ∨ s.players.length - 1 ≤ s.turn_index
         then s.turn_index - 1 else s.turn_index) ∧
    (removePlayer s addr).deck = s.deck ∧
    (removePlayer s addr).discard = s.discard ∧
    (removePlayer s addr).direction = s.direction ∧
    (removePlayer s addr).activeColor = s.activeColor := by
  have hidx : idxOfAux s.players addr < s.players.length := idxOfAux_lt_length h1
  have hlen : (s.players.eraseIdx (idxOfAux s.players addr)).length
      = s.players.length - 1 := by
    rw [List.length_eraseIdx]
    simp [hidx]
  refine ⟨?_, ?_, ?_, ?_, ?_, ?_, ?_, ?_⟩
  · exact handleCommand_exit room s addr text rest hand h1 hh hp
  · unfold removePlayer
    rw [if_pos h1]
  · unfold removePlayer
    rw [if_pos h1]
    exact handLookup_handErase_self s.hands addr hk
  · unfold removePlayer
    rw [if_pos h1]
    simp only [hlen]
  · unfold removePlayer
    split <;> rfl
  · unfold removePlayer
    split <;> rfl
  · unfold removePlayer
    split <;> rfl
  · unfold removePlayer
    split <;> rfl

/-- Witness for C4 amended: player C (a seat strictly after the pointer)
exits; the pointer is unchanged and C's hand is gone. -/
theorem C4_exit_semantics_witness :
    step "r" c4state (Event.command "C" "exit")
      = (removePlayer c4state "C",
         [Msg.broadcast "[ROOM r] Player C left the room."]) ∧
    (removePlayer c4state "C").players = ["A", "B", "D"] ∧
    handLookup (removePlayer c4state "C").hands "C" = none ∧
    (removePlayer c4state "C").turn_index = 1 := by
  have h := C4_exit_semantics "r" c4state "C" "exit" [] ["3 Red"]
    (by decide) (by decide) (by decide) (by decide)
  refine ⟨h.1, ?_, h.2.2.1, ?_⟩
  · rw [h.2.1]
    decide
  · rw [h.2.2.2.1]
    decide

/-- C5 counterexample: for the deck card "0 Red" played on a top "Wild" with
no active color, the source accepts the play but the claim's
characterization says it is not playable, so the claimed iff is false. -/
theorem C5_counterexample :
    "0 Red" ∈ allCards ∧ "Wild" ∈ allCards ∧
    card_matches "0 Red" (some "Wild") none = true ∧
    cardMatchesClaim "0 Red" (some "Wild") none = false := by
  decide

set_option maxRecDepth 10000 in
/-- C5 amended: over every card of the deck's 60 tokens, every possible top
(absent or any deck token) and every active_color value the engine can hold
(unset or one of the four colors), `card_matches` agrees exactly with the
claim's characterization extended with the wild-top/unset-active-color
case. -/
theorem C5_match_rule_characterization :
    ∀ card ∈ allCards, ∀ top ∈ (none :: allCards.map some),
      ∀ ac ∈ ([none, some "Red", some "Green", some "Blue", some "Yellow"] :
          List (Option String)),
        card_matches card top ac = cardMatchesAmended card top ac := by
  decide

/-- Witness for C5 amended at a concrete card, top and active color. -/
theorem C5_match_rule_characterization_witness :
    card_matches "0 Red" (some "0 Yellow") none
      = cardMatchesAmended "0 Red" (some "0 Yellow") none :=
  C5_match_rule_characterization "0 Red" (by decide) (some "0 Yellow") (by decide)
    none (by decide)

/-- Reduction of `handleCommand` for a `play` command from the seated player
whose turn it is. -/
lemma handleCommand_play (room : String) (s : RoomState) (addr text : String)
    (rest : List String) (hand : List String)
    (h1 : addr ∈ s.players) (hh : handLookup s.hands addr = some hand)
    (ht : s.players.getD s.turn_index "" = addr)
    (hp : splitWs (stripStr text) = "play" :: rest) :
    handleCommand room s addr text = playCmd room s addr ("play" :: rest) := by
  have hc : ¬ (stripStr text = "") := by
    intro he
    rw [he] at hp
    exact List.cons_ne_nil _ _ (hp.symm.trans rfl)
  simp only [handleCommand, hp, hh]
  rw [if_neg (not_not_intro h1), if_neg (by simp), if_neg hc]
  simp only [List.getD_cons_zero]
  rw [if_neg (by decide), if_neg (by decide), if_neg (by decide),
    if_neg (fun hcon => hcon.2 ht), if_pos (show lowerStr "play" = "play" from rfl)]

/-- Reduction of `handleCommand` for a `draw` command from the seated player
whose turn it is. -/
lemma handleCommand_draw (room : String) (s : RoomState) (addr text : String)
    (rest : List String) (hand : List String)
    (h1 : addr ∈ s.players) (hh : handLookup s.hands addr = some hand)
    (ht : s.players.getD s.turn_index "" = addr)
    (hp : splitWs (stripStr text) = "draw" :: rest) :
    handleCommand room s addr text = drawCmd room s addr := by
  have hc : ¬ (stripStr text = "") := by
    intro he
    rw [he] at hp
    exact List.cons_ne_nil _ _ (hp.symm.trans rfl)
  simp only [handleCommand, hp, hh]
  rw [if_neg (not_not_intro h1), if_neg (by simp), if_neg hc]
  simp only [List.getD_cons_zero]
  rw [if_neg (by decide), if_neg (by decide), if_neg (by decide),
    if_neg (fun hcon => hcon.2 ht), if_neg (by decide),
    if_pos (show lowerStr "draw" = "draw" from rfl)]

/-- Reduction of `playCmd` when the index parses, is in range, and the
selected card matches: the card is placed and its effect applied. -/
lemma playCmd_success (room : String) (s : RoomState) (addr istr : String)
    (rest : List String) (i : Nat) (hand : List String)
    (hh : handLookup s.hands addr = some hand)
    (hi : parseInt istr = some ((i : Int) + 1))
    (hlen : i < hand.length)
    (hm : card_matches (hand.getD i "") s.discard.getLast? s.activeColor = true) :
    playCmd room s addr ("play" :: istr :: rest)
      = ((applyCardEffect room
            { s with hands := handSet s.hands addr (hand.eraseIdx i),
                     discard := s.discard ++ [hand.getD i ""],
                     activeColor := none } addr ("play" :: istr :: rest) (hand.getD i "")).1,
         Msg.broadcast ("[ROOM " ++ room ++ "] " ++ addr ++ " played " ++ hand.getD i "")
           :: (applyCardEffect room
            { s with hands := handSet s.hands addr (hand.eraseIdx i),
                     discard := s.discard ++ [hand.getD i ""],
                     activeColor := none } addr ("play" :: istr :: rest) (hand.getD i "")).2) := by
  have htn : ((i : Int) + 1 - 1).toNat = i := by omega
  simp only [playCmd, hh, Option.getD_some]
  rw [if_neg (by simp)]
  simp only [List.getD_cons_succ, List.getD_cons_zero]
  rw [hi]
  simp only [htn]
  rw [if_neg (by omega)]
  rw [if_pos hm]
  rfl

lemma advanceTurn_hands (room : String) (s : RoomState) (k : Int) :
    (advanceTurn room s k).1.hands = s.hands := by
  unfold advanceTurn
  split <;> rfl

lemma advanceTurn_deck (room : String) (s : RoomState) (k : Int) :
    (advanceTurn room s k).1.deck = s.deck := by
  unfold advanceTurn
  split <;> rfl

lemma advanceTurn_players (room : String) (s : RoomState) (k : Int) :
    (advanceTurn room s k).1.players = s.players := by
  unfold advanceTurn
  split <;> rfl

lemma advanceTurn_direction (room : String) (s : RoomState) (k : Int) :
    (advanceTurn room s k).1.direction = s.direction := by
  unfold advanceTurn
  split <;> rfl

lemma advanceTurn_discard (room : String) (s : RoomState) (k : Int) :
    (advanceTurn room s k).1.discard = s.discard := by
  unfold advanceTurn
  split <;> rfl

lemma advanceTurn_activeColor (room : String) (s : RoomState) (k : Int) :
    (advanceTurn room s k).1.activeColor = s.activeColor := by
  unfold advanceTurn
  split <;> rfl

lemma advanceTurn_turn (room : String) (s : RoomState) (k : Int) (h : s.players ≠ []) :
    (advanceTurn room s k).1.turn_index
      = (((s.turn_index : Int) + s.direction * k) % (s.players.length : Int)).toNat := by
  unfold advanceTurn
  rw [if_neg h]

lemma advanceTurn_msgs (room : String) (s : RoomState) (k : Int) (h : s.players ≠ []) :
    (advanceTurn room s k).2 = turnNote room (advanceTurn room s k).1 := by
  unfold advanceTurn
  rw [if_neg h]

lemma advanceTurn_turn_ite (room : String) (s : RoomState) (k : Int) :
    (advanceTurn room s k).1.turn_index
      = if s.players = [] then s.turn_index
        else (((s.turn_index : Int) + s.direction * k) % (s.players.length : Int)).toNat := by
  unfold advanceTurn
  split <;> rfl

lemma advanceTurn_snd_ite (room : String) (s : RoomState) (k : Int) :
    (advanceTurn room s k).2
      = if s.players = [] then ([] : List Msg)
        else turnNote room (advanceTurn room s k).1 := by
  unfold advanceTurn
  split <;> rfl

/-- C8: a `draw` command issued by the player at `turn_index`: with an empty
deck the DeckEmpty error is reported to the caller, the hand and deck are
unchanged, and the turn pointer still advances by one seat; with a non-empty
deck, exactly one card (the deck's last) moves from the deck into the
caller's hand and the turn advances by one seat. -/
theorem C8_draw_semantics (room : String) (s : RoomState) (addr text : String)
    (rest : List String) (hand : List String)
    (h1 : addr ∈ s.players)
    (hh : handLookup s.hands addr = some hand)
    (ht : s.players.getD s.turn_index "" = addr)
    (hp : splitWs (stripStr text) = "draw" :: rest) :
    (s.deck = [] →
       (step room s (Event.command addr text)).1.hands = s.hands ∧
       (step room s (Event.command addr text)).1.deck = s.deck ∧
       (step room s (Event.command addr text)).2
         = Msg.sendTo addr "ERROR No cards left to draw."
             :: turnNote room (step room s (Event.command addr text)).1) ∧
    (s.deck ≠ [] →
       (step room s (Event.command addr text)).1.hands
         = handSet s.hands addr (hand ++ [s.deck.getLast?.getD ""]) ∧
       (step room s (Event.command addr text)).1.deck = s.deck.dropLast ∧
       (step room s (Event.command addr text)).2
         = Msg.sendTo addr ("DRAWN " ++ s.deck.getLast?.getD "")
             :: Msg.broadcast ("[ROOM " ++ room ++ "] " ++ addr ++ " drew a card.")
             :: turnNote room (step room s (Event.command addr text)).1) ∧
    (step room s (Event.command addr text)).1.turn_index
      = (((s.turn_index : Int) + s.direction * 1) % (s.players.length : Int)).toNat ∧
    (step room s (Event.command addr text)).1.direction = s.direction ∧
    (step room s (Event.command addr text)).1.players = s.players := by
  have hne : s.players ≠ [] := List.ne_nil_of_mem h1
  have hstep : step room s (Event.command addr text) = drawCmd room s addr :=
    handleCommand_draw room s addr text rest hand h1 hh ht hp
  rw [hstep]
  unfold drawCmd
  cases hdeck : s.deck.getLast? with
  | none =>
    have hd : s.deck = [] := by
      cases hcs : s.deck with
      | nil => rfl
      | cons x t =>
        rw [hcs] at hdeck
        simp [List.getLast?_eq_getLast] at hdeck
    simp only [drawCard, hdeck]
    refine ⟨fun _ => ⟨advanceTurn_hands _ _ _, advanceTurn_deck _ _ _, ?_⟩,
      fun hcon => absurd hd hcon, advanceTurn_turn _ _ _ hne,
      advanceTurn_direction _ _ _, advanceTurn_players _ _ _⟩
    rw [advanceTurn_msgs _ _ _ hne]
    rfl
  | some c =>
    have hd : s.deck ≠ [] := by
      intro he
      rw [he] at hdeck
      exact Option.noConfusion hdeck
    simp only [drawCard, hdeck, hh, Option.getD_some]
    rw [advanceTurn_snd_ite, advanceTurn_turn_ite]
    dsimp only
    rw [if_neg hne, if_neg hne]
    refine ⟨fun hcon => absurd hcon hd, fun _ => ⟨?_, ?_, ?_⟩, ?_, ?_, ?_⟩
    · rw [advanceTurn_hands]
    · rw [advanceTurn_deck]
    · rfl
    · rfl
    · rw [advanceTurn_direction]
    · rw [advanceTurn_players]

/-- Witness for C8 at a concrete one-card deck: the card moves into A's hand
and the turn advances one seat. -/
theorem C8_draw_semantics_witness :
    (step "r" c8state (Event.command "A" "draw")).1.hands
      = handSet c8state.hands "A" (["1 Red"] ++ ["5 Blue"]) ∧
    (step "r" c8state (Event.command "A" "draw")).1.deck = [] ∧
    (step "r" c8state (Event.command "A" "draw")).1.turn_index = 1 := by
  have h := C8_draw_semantics "r" c8state "A" "draw" [] ["1 Red"]
    (by decide) (by decide) (by decide) (by decide)
  have h2 := h.2.1 (by decide)
  exact ⟨h2.1, by rw [h2.2.1]; decide, by rw [h.2.2.1]; decide⟩

/-- A successful play places the card and applies its effect. -/
lemma step_play_success (room : String) (s : RoomState) (addr text istr : String)
    (rest : List String) (i : Nat) (hand : List String)
    (h : playSucceeds s addr text istr rest i hand) :
    step room s (Event.command addr text)
      = ((applyCardEffect room (placedState s addr hand i) addr ("play" :: istr :: rest)
            (hand.getD i "")).1,
         Msg.broadcast ("[ROOM " ++ room ++ "] " ++ addr ++ " played " ++ hand.getD i "")
           :: (applyCardEffect room (placedState s addr hand i) addr
                ("play" :: istr :: rest) (hand.getD i "")).2) := by
  obtain ⟨h1, hh, ht, hp, hi, hlen, hm⟩ := h
  calc step room s (Event.command addr text)
      = playCmd room s addr ("play" :: istr :: rest) :=
        handleCommand_play room s addr text (istr :: rest) hand h1 hh ht hp
    _ = _ := playCmd_success room s addr istr rest i hand hh hi hlen hm

/-- The effect of a placed Skip card: advance two seats. -/
lemma applyCardEffect_skip (room : String) (s1 : RoomState) (addr : String)
    (parts : List String) (col : String) (hcol : col ∈ suits) :
    applyCardEffect room s1 addr parts ("Skip " ++ col) = advanceTurn room s1 2 := by
  fin_cases hcol <;> rfl

/-- The effect of a placed Reverse card: with exactly two seats advance two
(as Skip does), otherwise flip the direction and advance one. -/
lemma applyCardEffect_reverse (room : String) (s1 : RoomState) (addr : String)
    (parts : List String) (col : String) (hcol : col ∈ suits) :
    applyCardEffect room s1 addr parts ("Reverse " ++ col)
      = (if s1.players.length = 2 then advanceTurn room s1 2
         else advanceTurn room { s1 with direction := -s1.direction } 1) := by
  fin_cases hcol <;> rfl

lemma handSet_handSet (hs : List (String × List String)) (a : String) (v w : List String) :
    handSet (handSet hs a v) a w = handSet hs a w := by
  induction hs with
  | nil => simp [handSet]
  | cons p t ih =>
    obtain ⟨k, u⟩ := p
    by_cases hk : k = a
    · simp [handSet, hk]
    · simp [handSet, hk, ih]

lemma eraseIdx_set_self (l : List String) (i : Nat) (x : String) :
    (l.set i x).eraseIdx i = l.eraseIdx i := by
  induction l generalizing i with
  | nil => simp
  | cons y t ih =>
    cases i with
    | zero => simp
    | succ j => simp [ih]

lemma getD_set_self (l : List String) (i : Nat) (x d : String) (h : i < l.length) :
    (l.set i x).getD i d = x := by
  induction l generalizing i with
  | nil => simp at h
  | cons y t ih =>
    cases i with
    | zero => rfl
    | succ j =>
      simp only [List.length_cons, Nat.succ_lt_succ_iff] at h
      simpa using ih j h

/-- C9: (a) a successful Skip play applies `advance 2` to the placed state,
so the pointer moves exactly two seats in the current direction and the
direction is unchanged; (b) with exactly two seats a successful Reverse play
applies the very same `advance 2` transformation, and against the same room
with a Skip of the same color substituted at the same hand position (when
that play is also legal) every resulting component agrees except the identity
of the discarded card; (c) with more than two seats a Reverse flips the
direction and advances one seat in the new direction. -/
theorem C9_skip_reverse_semantics :
    (∀ room s addr text istr rest i hand col,
       playSucceeds s addr text istr rest i hand → col ∈ suits →
       hand.getD i "" = "Skip " ++ col →
       step room s (Event.command addr text)
         = ((advanceTurn room (placedState s addr hand i) 2).1,
            Msg.broadcast ("[ROOM " ++ room ++ "] " ++ addr ++ " played " ++ ("Skip " ++ col))
              :: (advanceTurn room (placedState s addr hand i) 2).2) ∧
       (step room s (Event.command addr text)).1.turn_index
         = (((s.turn_index : Int) + s.direction * 2) % (s.players.length : Int)).toNat ∧
       (step room s (Event.command addr text)).1.direction = s.direction) ∧
    (∀ room s addr text istr rest i hand col,
       playSucceeds s addr text istr rest i hand → col ∈ suits →
       hand.getD i "" = "Reverse " ++ col →
       s.players.length = 2 →
       (step room s (Event.command addr text)
         = ((advanceTurn room (placedState s addr hand i) 2).1,
            Msg.broadcast ("[ROOM " ++ room ++ "] " ++ addr ++ " played " ++ ("Reverse " ++ col))
              :: (advanceTurn room (placedState s addr hand i) 2).2) ∧
        (step room s (Event.command addr text)).1.turn_index
          = (((s.turn_index : Int) + s.direction * 2) % (s.players.length : Int)).toNat ∧
        (step room s (Event.command addr text)).1.direction = s.direction) ∧
       (∀ s2 hand2,
          hand2 = hand.set i ("Skip " ++ col) →
          s2 = { s with hands := handSet s.hands addr hand2 } →
          playSucceeds s2 addr text istr rest i hand2 →
          (step room s2 (Event.command addr text)).1.players
            = (step room s (Event.command addr text)).1.players ∧
          (step room s2 (Event.command addr text)).1.turn_index
            = (step room s (Event.command addr text)).1.turn_index ∧
          (step room s2 (Event.command addr text)).1.direction
            = (step room s (Event.command addr text)).1.direction ∧
          (step room s2 (Event.command addr text)).1.hands
            = (step room s (Event.command addr text)).1.hands ∧
          (step room s2 (Event.command addr text)).1.deck
            = (step room s (Event.command addr text)).1.deck ∧
          (step room s2 (Event.command addr text)).1.activeColor
            = (step room s (Event.command addr text)).1.activeColor ∧
          (step room s (Event.command addr text)).1.discard
            = s.discard ++ ["Reverse " ++ col] ∧
          (step room s2 (Event.command addr text)).1.discard
            = s.discard ++ ["Skip " ++ col])) ∧
    (∀ room s addr text istr rest i hand col,
       playSucceeds s addr text istr rest i hand → col ∈ suits →
       hand.getD i "" = "Reverse " ++ col →
       2 < s.players.length →
       (step room s (Event.command addr text)).1.direction = -s.direction ∧
       (step room s (Event.command addr text)).1.turn_index
         = (((s.turn_index : Int) + (-s.direction) * 1) % (s.players.length : Int)).toNat) := by
  refine ⟨?_, ?_, ?_⟩
  · intro room s addr text istr rest i hand col hps hcol hcard
    have hne : s.players ≠ [] := List.ne_nil_of_mem hps.1
    have hstep := step_play_success room s addr text istr rest i hand hps
    rw [hcard, applyCardEffect_skip room _ addr _ col hcol] at hstep
    refine ⟨hstep, ?_, ?_⟩
    · rw [hstep]
      simp only [advanceTurn_turn_ite, placedState]
      rw [if_neg hne]
    · rw [hstep, advanceTurn_direction]
      rfl
  · intro room s addr text istr rest i hand col hps hcol hcard h2
    have hne : s.players ≠ [] := List.ne_nil_of_mem hps.1
    have hstep := step_play_success room s addr text istr rest i hand hps
    rw [hcard, applyCardEffect_reverse room _ addr _ col hcol] at hstep
    rw [if_pos (show (placedState s addr hand i).players.length = 2 from h2)] at hstep
    refine ⟨⟨hstep, ?_, ?_⟩, ?_⟩
    · rw [hstep]
      simp only [advanceTurn_turn_ite, placedState]
      rw [if_neg hne]
    · rw [hstep, advanceTurn_direction]
      rfl
    · intro s2 hand2 hh2 hs2 hps2
      have hi6 := hps.2.2.2.2.2.1
      have hne2 : s2.players ≠ [] := by
        rw [hs2]
        exact hne
      have hstep2 := step_play_success room s2 addr text istr rest i hand2 hps2
      have hcard2 : hand2.getD i "" = "Skip " ++ col := by
        rw [hh2]
        exact getD_set_self hand i _ "" hi6
      rw [hcard2, applyCardEffect_skip room _ addr _ col hcol] at hstep2
      have hplaced : placedState s2 addr hand2 i
          = { placedState s addr hand i with discard := s.discard ++ ["Skip " ++ col] } := by
        simp only [placedState, hs2, hh2, handSet_handSet, eraseIdx_set_self,
          getD_set_self hand i _ "" hi6, hcard]
      rw [hplaced] at hstep2
      rw [hstep, hstep2]
      refine ⟨?_, ?_, ?_, ?_, ?_, ?_, ?_, ?_⟩
      · rw [advanceTurn_players, advanceTurn_players]
      · rw [advanceTurn_turn_ite, advanceTurn_turn_ite]
      · rw [advanceTurn_direction, advanceTurn_direction]
      · rw [advanceTurn_hands, advanceTurn_hands]
      · rw [advanceTurn_deck, advanceTurn_deck]
      · rw [advanceTurn_activeColor, advanceTurn_activeColor]
      · rw [advanceTurn_discard]
        simp only [placedState, hcard]
      · rw [advanceTurn_discard]
  · intro room s addr text istr rest i hand col hps hcol hcard h3
    have hne : s.players ≠ [] := List.ne_nil_of_mem hps.1
    have hstep := step_play_success room s addr text istr rest i hand hps
    rw [hcard, applyCardEffect_reverse room _ addr _ col hcol] at hstep
    rw [if_neg (show ¬ (placedState s addr hand i).players.length = 2 from by
      simp only [placedState]
      omega)] at hstep
    constructor
    · rw [hstep, advanceTurn_direction]
      rfl
    · rw [hstep]
      simp only [advanceTurn_turn_ite, placedState]
      rw [if_neg hne]

/-- Witness for C9: a Skip in a 3-seat room advances two; a Reverse in a
2-seat room keeps the direction, returns the turn to the caller (advance 2
mod 2), and agrees with the substituted Skip play on turn pointer and hands;
a Reverse in a 3-seat room flips the direction and advances one. -/
theorem C9_skip_reverse_semantics_witness :
    (step "r" c9aState (Event.command "A" "play 1")).1.turn_index = 2 ∧
    (step "r" c9aState (Event.command "A" "play 1")).1.direction = 1 ∧
    (step "r" c9bState (Event.command "A" "play 1")).1.turn_index = 0 ∧
    (step "r" c9bState (Event.command "A" "play 1")).1.direction = 1 ∧
    (step "r" c9bSkipState (Event.command "A" "play 1")).1.turn_index
      = (step "r" c9bState (Event.command "A" "play 1")).1.turn_index ∧
    (step "r" c9bSkipState (Event.command "A" "play 1")).1.hands
      = (step "r" c9bState (Event.command "A" "play 1")).1.hands ∧
    (step "r" c9cState (Event.command "A" "play 1")).1.direction = -1 ∧
    (step "r" c9cState (Event.command "A" "play 1")).1.turn_index = 2 := by
  have ha := C9_skip_reverse_semantics.1 "r" c9aState "A" "play 1" "1" [] 0
    ["Skip Red", "1 Blue"] "Red" (by decide) (by decide) (by decide)
  have hb := C9_skip_reverse_semantics.2.1 "r" c9bState "A" "play 1" "1" [] 0
    ["Reverse Red"] "Red" (by decide) (by decide) (by decide) (by decide)
  have hb2 := hb.2 c9bSkipState ["Skip Red"] (by decide) rfl (by decide)
  have hc := C9_skip_reverse_semantics.2.2 "r" c9cState "A" "play 1" "1" [] 0
    ["Reverse Red"] "Red" (by decide) (by decide) (by decide) (by decide)
  refine ⟨?_, ?_, ?_, ?_, hb2.2.1, hb2.2.2.2.1, ?_, ?_⟩
  · rw [ha.2.1]
    decide
  · rw [ha.2.2]
    decide
  · rw [hb.1.2.1]
    decide
  · rw [hb.1.2.2]
    decide
  · rw [hc.1]
    decide
  · rw [hc.2]
    decide

lemma handLookup_handSet_self (hs : List (String × List String)) (a : String)
    (v : List String) : handLookup (handSet hs a v) a = some v := by
  induction hs with
  | nil => simp [handSet, handLookup]
  | cons p t ih =>
    obtain ⟨k, w⟩ := p
    by_cases hk : k = a
    · simp [handSet, handLookup, hk]
    · simp [handSet, handLookup, hk, ih]

lemma handLookup_handSet_ne (hs : List (String × List String)) (a k : String)
    (v : List String) (hne : k ≠ a) : handLookup (handSet hs a v) k = handLookup hs k := by
  induction hs with
  | nil =>
    simp only [handSet, handLookup]
    rw [if_neg (fun h => hne h.symm)]
  | cons p t ih =>
    obtain ⟨q, w⟩ := p
    simp only [handSet]
    by_cases hq : q = a
    · rw [if_pos hq]
      simp only [handLookup]
      subst hq
      rw [if_neg (fun h => hne h.symm), if_neg (fun h => hne h.symm)]
    · rw [if_neg hq]
      simp only [handLookup]
      by_cases hqk : q = k
      · rw [if_pos hqk, if_pos hqk]
      · rw [if_neg hqk, if_neg hqk]
        exact ih

lemma drawN_length (k : Nat) (d : List String) :
    (drawN k d).1.length = min k d.length := by
  induction k generalizing d with
  | zero => simp [drawN]
  | succ m ih =>
    cases hd : d.getLast? with
    | none =>
      have hdnil : d = [] := by
        cases d with
        | nil => rfl
        | cons x t => simp [List.getLast?_eq_getLast] at hd
      subst hdnil
      simp [drawN, drawCard]
    | some c =>
      have hdne : d ≠ [] := by
        intro he
        rw [he] at hd
        exact Option.noConfusion hd
      have hdp : 0 < d.length := List.length_pos.mpr hdne
      have he : drawN (m + 1) d = (c :: (drawN m d.dropLast).1, (drawN m d.dropLast).2) := by
        simp [drawN, drawCard, hd]
      rw [he]
      simp only [List.length_cons, ih, List.length_dropLast]
      omega

lemma nodup_getD_inj {l : List String} (hnd : l.Nodup) {i j : Nat}
    (hi : i < l.length) (hj : j < l.length)
    (he : l.getD i "" = l.getD j "") : i = j := by
  rw [List.getD_eq_getElem?_getD, List.getD_eq_getElem?_getD,
    List.getElem?_eq_getElem hi, List.getElem?_eq_getElem hj, Option.getD_some,
    Option.getD_some] at he
  exact (List.Nodup.getElem_inj_iff hnd).mp he

/-- The seat one step away in the current direction differs from the current
seat whenever at least two seats exist. -/
lemma next_idx_ne_turn (t n : Nat) (d : Int) (hd : d = 1 ∨ d = -1) (h2 : 2 ≤ n)
    (ht : t < n) : (((t : Int) + d) % (n : Int)).toNat ≠ t := by
  rcases hd with rfl | rfl
  · rcases Nat.lt_or_ge (t + 1) n with hlt | hge
    · rw [Int.emod_eq_of_lt (by positivity) (by exact_mod_cast hlt)]
      omega
    · have he : ((t : Int) + 1) = (n : Int) := by
        have : t + 1 = n := by omega
        exact_mod_cast this
      rw [he, Int.emod_self]
      omega
  · rcases Nat.eq_zero_or_pos t with rfl | hpos
    · have e2 : (((0 : Nat) : Int) + -1) % (n : Int) = ((n : Int) - 1) % (n : Int) := by
        have e3 : ((n : Int) - 1) = (((0 : Nat) : Int) + -1) + (n : Int) * 1 := by ring
        rw [e3, Int.add_mul_emod_self_left]
      rw [e2, Int.emod_eq_of_lt (by omega) (by omega)]
      omega
    · rw [Int.emod_eq_of_lt (by omega) (by omega)]
      omega

/-- Applying `advance_turn(0)` leaves a well-pointed state unchanged. -/
lemma advanceTurn_zero_fst (room : String) (s : RoomState)
    (hti : s.turn_index < s.players.length) : (advanceTurn room s 0).1 = s := by
  have hne : s.players ≠ [] := by
    intro he
    rw [he] at hti
    simp at hti
  unfold advanceTurn
  rw [if_neg hne]
  simp only
  have hX : (((s.turn_index : Int) + s.direction * 0) % (s.players.length : Int)).toNat
      = s.turn_index := by
    rw [mul_zero, add_zero,
      Int.emod_eq_of_lt (Int.natCast_nonneg _) (by exact_mod_cast hti)]
    omega
  rw [hX]

/-- Reduction of `applyCardEffect` for a placed Wild Draw Four once a color is
accepted (or defaulted): notification at unchanged turn, up-to-four-card
penalty for the seat one step away, then advance two. -/
lemma applyCardEffect_wdf_fst (room : String) (s1 : RoomState) (addr : String)
    (parts : List String) (chosen : String)
    (hti : s1.turn_index < s1.players.length)
    (hch : (if 3 ≤ parts.length
            then (if isValidColor (capitalizePy (parts.getD 2 "")) = true
                  then some (capitalizePy (parts.getD 2 "")) else none)
            else some "Red") = some chosen) :
    (applyCardEffect room s1 addr parts "Wild Draw Four").1
      = (advanceTurn room
          { s1 with activeColor := some chosen,
                    deck := (drawN 4 s1.deck).2,
                    hands := handSet s1.hands
                      (s1.players.getD (((s1.turn_index : Int) + s1.direction)
                          % (s1.players.length : Int)).toNat "")
                      ((handLookup s1.hands
                          (s1.players.getD (((s1.turn_index : Int) + s1.direction)
                              % (s1.players.length : Int)).toNat "")).getD []
                        ++ (drawN 4 s1.deck).1) } 2).1 := by
  have hne : s1.players ≠ [] := by
    intro he
    rw [he] at hti
    simp at hti
  have e0 : (advanceTurn room { s1 with activeColor := some chosen } 0).1
      = { s1 with activeColor := some chosen } :=
    advanceTurn_zero_fst room _ hti
  simp only [applyCardEffect]
  rw [if_pos (show strStarts "Wild Draw Four" "Wild" = true from rfl)]
  rw [hch]
  simp only [eq_self_iff_true, if_true]
  rw [e0]
  rw [if_neg (show ¬ ({ s1 with activeColor := some chosen } : RoomState).players = []
    from hne)]

/-- C6 counterexample: the Wild Draw Four play succeeds (the card reaches the
discard pile) in a two-seat room, but the next player's hand does not grow by
4 — the deck is empty, so it does not grow at all. -/
theorem C6_counterexample :
    c6state.players.length = 2 ∧
    (step "r" c6state (Event.command "A" "play 1 Green")).1.discard
      = ["3 Blue", "Wild Draw Four"] ∧
    handLookup (step "r" c6state (Event.command "A" "play 1 Green")).1.hands "B"
      = some ["1 Red"] ∧
    handLookup c6state.hands "B" = some ["1 Red"] := by
  decide

/-- C6 amended: for every successful Wild Draw Four play in a room with at
least two seated players (distinct ids, valid pointer, direction ±1, color
argument absent or valid), the hand of the seat one step away in the current
direction grows by exactly `min 4 |deck|` cards — hence by exactly 4 whenever
the deck holds at least 4 — and the turn pointer ends net two seats past the
player who played it, with the direction unchanged. -/
theorem C6_wild_draw_four_semantics (room : String) (s : RoomState)
    (addr text istr : String) (rest : List String) (i : Nat) (hand : List String)
    (hps : playSucceeds s addr text istr rest i hand)
    (hcard : hand.getD i "" = "Wild Draw Four")
    (h2 : 2 ≤ s.players.length)
    (hti : s.turn_index < s.players.length)
    (hdir : s.direction = 1 ∨ s.direction = -1)
    (hnd : s.players.Nodup)
    (hcolor : rest = [] ∨ isValidColor (capitalizePy (rest.getD 0 "")) = true) :
    handLookup (step room s (Event.command addr text)).1.hands
        (s.players.getD (((s.turn_index : Int) + s.direction)
            % (s.players.length : Int)).toNat "")
      = some ((handLookup s.hands
            (s.players.getD (((s.turn_index : Int) + s.direction)
                % (s.players.length : Int)).toNat "")).getD []
          ++ (drawN 4 s.deck).1) ∧
    (drawN 4 s.deck).1.length = min 4 s.deck.length ∧
    (step room s (Event.command addr text)).1.turn_index
      = (((s.turn_index : Int) + s.direction * 2) % (s.players.length : Int)).toNat ∧
    (step room s (Event.command addr text)).1.direction = s.direction ∧
    (step room s (Event.command addr text)).1.players = s.players := by
  have hne : s.players ≠ [] := List.ne_nil_of_mem hps.1
  have hnpos : 0 < s.players.length := List.length_pos.mpr hne
  have hstep := step_play_success room s addr text istr rest i hand hps
  rw [hcard] at hstep
  obtain ⟨chosen, hch⟩ :
      ∃ c, (if 3 ≤ ("play" :: istr :: rest).length
            then (if isValidColor (capitalizePy (("play" :: istr :: rest).getD 2 "")) = true
                  then some (capitalizePy (("play" :: istr :: rest).getD 2 "")) else none)
            else some "Red") = some c := by
    rcases hcolor with hr | hv
    · subst hr
      exact ⟨"Red", by rw [if_neg (by simp)]⟩
    · by_cases hr : rest = []
      · subst hr
        exact absurd hv (by decide)
      · have hlr : 0 < rest.length := List.length_pos.mpr hr
        refine ⟨capitalizePy (rest.getD 0 ""), ?_⟩
        rw [if_pos (by simp only [List.length_cons]; omega)]
        simp only [List.getD_cons_succ, List.getD_cons_zero]
        rw [if_pos hv]
  rw [applyCardEffect_wdf_fst room _ addr _ chosen
    (show (placedState s addr hand i).turn_index
        < (placedState s addr hand i).players.length from hti) hch] at hstep
  -- the penalized seat index and its distinctness from the caller's seat
  have hnidx : (((s.turn_index : Int) + s.direction) % (s.players.length : Int)).toNat
      < s.players.length := by
    have h1 : (0 : Int) ≤ ((s.turn_index : Int) + s.direction) % (s.players.length : Int) :=
      Int.emod_nonneg _ (by exact_mod_cast hnpos.ne')
    have hlt : ((s.turn_index : Int) + s.direction) % (s.players.length : Int)
        < (s.players.length : Int) :=
      Int.emod_lt_of_pos _ (by exact_mod_cast hnpos)
    omega
  have hneidx : (((s.turn_index : Int) + s.direction) % (s.players.length : Int)).toNat
      ≠ s.turn_index := next_idx_ne_turn s.turn_index s.players.length s.direction hdir h2 hti
  have hnextne : s.players.getD (((s.turn_index : Int) + s.direction)
      % (s.players.length : Int)).toNat "" ≠ addr := by
    intro he
    rw [← hps.2.2.1] at he
    exact hneidx (nodup_getD_inj hnd hnidx hti he)
  refine ⟨?_, drawN_length 4 s.deck, ?_, ?_, ?_⟩
  · rw [hstep]
    simp only [advanceTurn_hands, placedState]
    rw [handLookup_handSet_self]
    rw [handLookup_handSet_ne _ _ _ _ hnextne]
  · rw [hstep]
    rw [advanceTurn_turn_ite]
    simp only [placedState]
    rw [if_neg hne]
  · rw [hstep, advanceTurn_direction]
    rfl
  · rw [hstep, advanceTurn_players]
    rfl

/-- Witness for C6 amended: with four cards in the deck the penalized hand
grows by exactly four and the turn returns to the caller (net two seats in a
two-seat room). -/
theorem C6_wild_draw_four_semantics_witness :
    handLookup (step "r" c6wState (Event.command "A" "play 1 Green")).1.hands "B"
      = some ["1 Red", "c4", "c3", "c2", "c1"] ∧
    (step "r" c6wState (Event.command "A" "play 1 Green")).1.turn_index = 0 ∧
    (drawN 4 c6wState.deck).1.length = min 4 c6wState.deck.length := by
  have h := C6_wild_draw_four_semantics "r" c6wState "A" "play 1 Green" "1" ["Green"] 0
    ["Wild Draw Four"] (by decide) (by decide) (by decide) (by decide) (by decide)
    (by decide) (by decide)
  refine ⟨?_, ?_, h.2.1⟩
  · have h1 := h.1
    rwa [show c6wState.players.getD (((c6wState.turn_index : Int) + c6wState.direction)
        % (c6wState.players.length : Int)).toNat "" = "B" from by decide,
      show (handLookup c6wState.hands "B").getD [] ++ (drawN 4 c6wState.deck).1
        = ["1 Red", "c4", "c3", "c2", "c1"] from by decide] at h1
  · have h3 := h.2.2.1
    rwa [show (((c6wState.turn_index : Int) + c6wState.direction * 2)
        % (c6wState.players.length : Int)).toNat = 0 from by decide] at h3

/-- Python `min` scans left to right and replaces the current best only on a
strictly smaller key, so the result is the first entry of minimum load. -/
lemma pickLeastFrom_spec (t : List (String × WorkerRec)) (best : String × WorkerRec) :
    (pickLeastFrom best t = best ∧ ∀ p ∈ t, best.2.load ≤ p.2.load) ∨
    (∃ pre post, t = pre ++ pickLeastFrom best t :: post ∧
      (pickLeastFrom best t).2.load < best.2.load ∧
      (∀ p ∈ pre, (pickLeastFrom best t).2.load < p.2.load) ∧
      (∀ p ∈ post, (pickLeastFrom best t).2.load ≤ p.2.load)) := by
  induction t generalizing best with
  | nil =>
    left
    exact ⟨rfl, by simp⟩
  | cons w t ih =>
    simp only [pickLeastFrom]
    by_cases hw : w.2.load < best.2.load
    · rw [if_pos hw]
      rcases ih w with ⟨heq, hall⟩ | ⟨pre, post, heqt, hlt, hpre, hpost⟩
      · right
        refine ⟨[], t, ?_, ?_, by simp, ?_⟩
        · rw [heq]
          rfl
        · rw [heq]
          exact hw
        · intro p hp
          rw [heq]
          exact hall p hp
      · right
        refine ⟨w :: pre, post, ?_, ?_, ?_, hpost⟩
        · rw [List.cons_append, ← heqt]
        · exact lt_trans hlt hw
        · intro p hp
          rcases List.mem_cons.mp hp with rfl | hp
          · exact hlt
          · exact hpre p hp
    · rw [if_neg hw]
      rcases ih best with ⟨heq, hall⟩ | ⟨pre, post, heqt, hlt, hpre, hpost⟩
      · left
        refine ⟨heq, ?_⟩
        intro p hp
        rcases List.mem_cons.mp hp with rfl | hp
        · exact le_of_not_lt hw
        · exact hall p hp
      · right
        refine ⟨w :: pre, post, ?_, hlt, ?_, hpost⟩
        · rw [List.cons_append, ← heqt]
        · intro p hp
          rcases List.mem_cons.mp hp with rfl | hp
          · exact lt_of_lt_of_le hlt (le_of_not_lt hw)
          · exact hpre p hp

lemma bump_cons_self (now : Int) (wid : String) (rec : WorkerRec)
    (t : List (String × WorkerRec)) :
    bump now wid ((wid, rec) :: t)
      = (wid, { rec with load := rec.load + 1, last_seen := now }) :: t := by
  simp [bump]

lemma bump_append (now : Int) (wid : String) (pre post : List (String × WorkerRec))
    (rec : WorkerRec) (hpre : wid ∉ pre.map Prod.fst) :
    bump now wid (pre ++ (wid, rec) :: post)
      = pre ++ (wid, { rec with load := rec.load + 1, last_seen := now }) :: post := by
  induction pre with
  | nil => simp [bump]
  | cons p t ih =>
    obtain ⟨k, r⟩ := p
    simp only [List.map_cons, List.mem_cons] at hpre
    push_neg at hpre
    simp only [List.cons_append, bump]
    rw [if_neg (fun h => hpre.1 h.symm)]
    exact congrArg _ (ih hpre.2)

lemma keys_nodup_evictStale (now : Int) (ws : List (String × WorkerRec))
    (h : (ws.map Prod.fst).Nodup) : ((evictStale now ws).map Prod.fst).Nodup := by
  unfold evictStale
  exact List.Nodup.sublist (List.Sublist.map Prod.fst (List.filter_sublist ws)) h

/-- C7: `CLIENT_REQ` first evicts every worker whose `last_seen` is more than
the 120-second staleness threshold old; with no live worker left it replies
`NO_WORKERS` and the registry is exactly the evicted (empty) registry;
otherwise it splits the live registry around the first worker of minimum load
(every earlier worker has strictly larger load, every later one at least as
large), increments exactly that worker's load by one, refreshes its
`last_seen`, leaves every other record untouched, and replies with that
worker's host and port together with the requested room hint. -/
theorem C7_client_req_assignment (now : Int) (ws : List (String × WorkerRec)) (hint : String)
    (hnd : (ws.map Prod.fst).Nodup) :
    (evictStale now ws = [] →
       clientReq now ws hint = ([], BrokerResp.noWorkers)) ∧
    (evictStale now ws ≠ [] →
       ∃ pre wid rec post,
         evictStale now ws = pre ++ (wid, rec) :: post ∧
         (∀ p ∈ pre, rec.load < p.2.load) ∧
         (∀ p ∈ post, rec.load ≤ p.2.load) ∧
         clientReq now ws hint
           = (pre ++ (wid, { rec with load := rec.load + 1, last_seen := now }) :: post,
              BrokerResp.assign rec.host rec.port hint)) := by
  constructor
  · intro he
    simp only [clientReq, he, pickLeast]
  · intro hlne
    cases hlive : evictStale now ws with
    | nil => exact absurd hlive hlne
    | cons w t =>
      have hky : ((w :: t).map Prod.fst).Nodup := by
        rw [← hlive]
        exact keys_nodup_evictStale now ws hnd
      cases hmwt : pickLeastFrom w t with
      | mk wid rec =>
        have hspec := pickLeastFrom_spec t w
        rw [hmwt] at hspec
        rcases hspec with ⟨heq, hall⟩ | ⟨pre, post, heqt, hlt, hpre, hpost⟩
        · subst heq
          refine ⟨[], wid, rec, t, ?_, by simp, ?_, ?_⟩
          · rfl
          · intro p hp
            exact hall p hp
          · simp only [clientReq, hlive, pickLeast, hmwt]
            rw [bump_cons_self]
            rfl
        · refine ⟨w :: pre, wid, rec, post, ?_, ?_, hpost, ?_⟩
          · rw [heqt, List.cons_append]
          · intro p hp
            rcases List.mem_cons.mp hp with rfl | hp
            · exact hlt
            · exact hpre p hp
          · have hwnd : wid ∉ (w :: pre).map Prod.fst := by
              have h2 : ((w :: pre).map Prod.fst ++ ((wid, rec) :: post).map Prod.fst).Nodup := by
                rw [← List.map_append, List.cons_append, ← heqt]
                exact hky
              intro hmem
              have hdisj := (List.nodup_append.mp h2).2.2
              exact hdisj hmem (by simp)
            simp only [clientReq, hlive, pickLeast, hmwt]
            rw [heqt, ← List.cons_append, bump_append now wid (w :: pre) post rec hwnd]

/-- Witness for C7: with both workers fresh at `now = 100`, the load-0 worker
is assigned, its load becomes 1, and the other record is untouched. -/
theorem C7_client_req_assignment_witness :
    ∃ pre wid rec post,
      evictStale 100 c7ws = pre ++ (wid, rec) :: post ∧
      (∀ p ∈ pre, rec.load < p.2.load) ∧
      (∀ p ∈ post, rec.load ≤ p.2.load) ∧
      clientReq 100 c7ws "auto"
        = (pre ++ (wid, { rec with load := rec.load + 1, last_seen := 100 }) :: post,
           BrokerResp.assign rec.host rec.port "auto") :=
  (C7_client_req_assignment 100 c7ws "auto" (by decide)).2 (by decide)

end Uno
